import Mathlib

/-!
Verification of the order-lifecycle core of the menuflow repository
(`src/server/routes.ts`, `src/server/storage.ts`, schema in
`src/setup-github.ts`).

Modelling conventions:
* Money is modelled in integer cents (`Nat`).  The schema's decimal strings
  carry at most two decimal places (`z.string().regex(/^\d+(\.\d{1,2})?$/)`,
  `decimal(10,2)` columns), so every price and total is an exact multiple of
  a cent; `parseFloat`/`toFixed(2)` round-trips are the identity on this
  domain and are modelled as such.
* Database rows are lists; drizzle's `update ... where id = ... returning`
  is modelled as a map over the list followed by a lookup by id.
* `status` is kept as the raw string stored in the `text` column.
* Timestamps (`createdAt`, `completedAt`) are `Nat` milliseconds.
* The `setTimeout` archival callback is modelled as an explicit
  `fireArchiveTimer` transition; the pending-timer map `archiveTimers` is a
  list of entries (order id, delay in ms).
-/

/-- One line item of an order, as stored in the `orders.items` json column:
`{ menuItemId, name, price, quantity }`.  `price` is in cents. -/
structure OrderItem where
  menuItemId : String
  name : String
  price : Nat
  quantity : Nat
deriving DecidableEq, Repr

/-- An `orders` table row (schema in `src/setup-github.ts`). -/
structure Order where
  id : String
  vendorId : String
  tableId : Option String
  orderNumber : Nat
  status : String
  items : List OrderItem
  totalAmount : Nat
  customerName : Option String
  archived : Bool
  createdAt : Nat
  completedAt : Option Nat
deriving DecidableEq, Repr

/-- A bill line item: `{ name, price, quantity }` (no `menuItemId`). -/
structure BillItem where
  name : String
  price : Nat
  quantity : Nat
deriving DecidableEq, Repr

/-- A `bills` table row.  `orderId` carries a unique constraint in the
schema. -/
structure Bill where
  orderId : String
  vendorId : String
  orderNumber : Nat
  tableNumber : Option String
  items : List BillItem
  totalAmount : Nat
  customerName : Option String
deriving DecidableEq, Repr

/-- A `tables` table row (the parts the order core reads). -/
structure Table where
  id : String
  vendorId : String
  tableNumber : String
deriving DecidableEq, Repr

/-- A `menu_items` table row (the parts the order core reads). -/
structure MenuItem where
  id : String
  vendorId : String
  name : String
  price : Nat
deriving DecidableEq, Repr

/-- The persistent store behind `DatabaseStorage`. -/
structure Storage where
  orders : List Order
  bills : List Bill
  tables : List Table
  menuItems : List MenuItem
deriving DecidableEq, Repr

/-- JavaScript `String.prototype.trim()` on the model's strings (drop
leading and trailing whitespace). -/
def trimStr (s : String) : String :=
  String.mk (((s.data.dropWhile (fun c => c.isWhitespace)).reverse.dropWhile
    (fun c => c.isWhitespace)).reverse)

/-- Stable insertion of an order into a list kept sorted by `createdAt`
descending. -/
def insertCreatedAtDesc (o : Order) : List Order → List Order
  | [] => [o]
  | x :: xs =>
    if o.createdAt ≤ x.createdAt then x :: insertCreatedAtDesc o xs
    else o :: x :: xs

/-- Stable sort by `createdAt` descending, modelling drizzle's
`orderBy(desc(orders.createdAt))`. -/
def sortCreatedAtDesc : List Order → List Order
  | [] => []
  | x :: xs => insertCreatedAtDesc x (sortCreatedAtDesc xs)

/-- `DatabaseStorage.getOrders(vendorId, includeArchived)`: all orders of the
vendor, filtered to non-archived unless `includeArchived`, sorted by
`createdAt` descending. -/
def Storage.getOrders (s : Storage) (vendorId : String)
    (includeArchived : Bool) : List Order :=
  sortCreatedAtDesc (s.orders.filter (fun o =>
    decide (o.vendorId = vendorId) && (includeArchived || !o.archived)))

/-- `DatabaseStorage.getOrder(id)`. -/
def Storage.getOrder (s : Storage) (id : String) : Option Order :=
  s.orders.find? (fun o => decide (o.id = id))

/-- `DatabaseStorage.getTable(id)`. -/
def Storage.getTable (s : Storage) (id : String) : Option Table :=
  s.tables.find? (fun t => decide (t.id = id))

/-- `DatabaseStorage.getTableByNumber(vendorId, tableNumber)`. -/
def Storage.getTableByNumber (s : Storage) (vendorId tableNumber : String) :
    Option Table :=
  s.tables.find? (fun t =>
    decide (t.vendorId = vendorId) && decide (t.tableNumber = tableNumber))

/-- `DatabaseStorage.getMenuItem(id)`. -/
def Storage.getMenuItem (s : Storage) (id : String) : Option MenuItem :=
  s.menuItems.find? (fun m => decide (m.id = id))

/-- `DatabaseStorage.getBillByOrderId(orderId)`. -/
def Storage.getBillByOrderId (s : Storage) (orderId : String) : Option Bill :=
  s.bills.find? (fun b => decide (b.orderId = orderId))

/-- drizzle's `update(orders).set(...).where(eq(orders.id, id))`: apply `g`
to every row whose `id` matches. -/
def updateById (l : List Order) (id : String) (g : Order → Order) :
    List Order :=
  l.map (fun o => if o.id = id then g o else o)

/-- The row update `updateOrderStatus` performs: set `status`, and set
`completedAt = now` when the new status is `completed`. -/
def statusUpdater (status : String) (now : Nat) (o : Order) : Order :=
  { o with status := status,
           completedAt := if status = "completed" then some now
                          else o.completedAt }

/-- `DatabaseStorage.updateOrderStatus(id, status)`: apply `statusUpdater`
to the matching row; return the updated row (`returning()`), or `none` when
no row matched. -/
def Storage.updateOrderStatus (s : Storage) (id status : String) (now : Nat) :
    Option Order × Storage :=
  let orders1 := updateById s.orders id (statusUpdater status now)
  (orders1.find? (fun o => decide (o.id = id)), { s with orders := orders1 })

/-- `DatabaseStorage.updateOrderItems(id, items, totalAmount)`. -/
def Storage.updateOrderItems (s : Storage) (id : String)
    (items : List OrderItem) (totalAmount : Nat) : Option Order × Storage :=
  let orders1 := updateById s.orders id (fun o =>
    { o with items := items, totalAmount := totalAmount })
  (orders1.find? (fun o => decide (o.id = id)), { s with orders := orders1 })

/-- `DatabaseStorage.archiveOrder(id)`: set `archived = true`. -/
def Storage.archiveOrder (s : Storage) (id : String) :
    Option Order × Storage :=
  let orders1 := updateById s.orders id (fun o => { o with archived := true })
  (orders1.find? (fun o => decide (o.id = id)), { s with orders := orders1 })

/-- `DatabaseStorage.getNextOrderNumber(vendorId)`: the query selects every
order of the vendor (archived included — the `where` clause has no
`archived` condition), sorts by `orderNumber` descending and adds 1 to the
first row's number; returns 1 when the vendor has no orders.  Taking the
first row of the descending sort is taking the maximum. -/
def Storage.getNextOrderNumber (s : Storage) (vendorId : String) : Nat :=
  let recentOrders := s.orders.filter (fun o => decide (o.vendorId = vendorId))
  if recentOrders.length = 0 then 1
  else (recentOrders.map (fun o => o.orderNumber)).foldl max 0 + 1

/-- WebSocket events broadcast by the routes. -/
inductive Event where
  | NEW_ORDER (order : Order)
  | ORDER_UPDATE (order : Order)
  | ORDER_ARCHIVED (orderId : String)
deriving DecidableEq, Repr

/-- HTTP responses of the order endpoints.  `okEmpty` models
`res.json(undefined)` (the merge path does not check the update result). -/
inductive Response where
  | ok (order : Order)
  | okEmpty
  | badRequest (message : String)
  | notFound (message : String)
  | serverError (message : String)
deriving DecidableEq, Repr

/-- One pending `archiveTimers` entry: order id and `setTimeout` delay in
milliseconds. -/
structure ArchiveTimer where
  orderId : String
  delayMs : Nat
deriving DecidableEq, Repr

/-- The mutable state a request handler sees: the database plus the
in-memory `archiveTimers` map. -/
structure ServerState where
  store : Storage
  timers : List ArchiveTimer
deriving DecidableEq, Repr

/-- Outcome of one handler invocation: HTTP response, new state, and the
`broadcastToVendor` calls it made (vendor id paired with the event). -/
structure HandlerResult where
  response : Response
  state : ServerState
  events : List (String × Event)
deriving DecidableEq, Repr

/-- Body of `POST /api/orders` after `insertOrderSchema.parse`:
`{ vendorId, tableId?, items, totalAmount, customerName? }`.  The schema
omits `id`, `createdAt`, `completedAt` and `orderNumber`; `status` and
`archived` keep their column defaults. -/
structure InsertOrderReq where
  vendorId : String
  tableId : Option String
  items : List OrderItem
  totalAmount : Nat
  customerName : Option String
deriving DecidableEq, Repr

/-- The only constraint `insertOrderSchema` places on `items` beyond shape:
each entry's `quantity: z.number().min(1)`.  Note the array itself has no
minimum length — an empty `items` list passes validation. -/
def insertOrderSchemaOk (req : InsertOrderReq) : Bool :=
  req.items.all (fun i => 1 ≤ i.quantity)

/-- `st === "new" || st === "preparing" || st === "ready"` (the active-order
condition of the merge lookup). -/
def isActiveStatus (st : String) : Bool :=
  decide (st = "new") || decide (st = "preparing") || decide (st = "ready")

/-- The `tableId` resolution of `POST /api/orders`: a blank/absent reference
resolves to no table; otherwise try the trimmed value as a direct table id,
then as a vendor-scoped table number; reject unknown tables and tables of a
different vendor with 400 messages. -/
def resolveTable (s : Storage) (vendorId : String) (tableRef : Option String) :
    Except String (Option String) :=
  match tableRef with
  | none => .ok none
  | some raw =>
    let t := trimStr raw
    if t = "" then .ok none
    else
      match (match s.getTable t with
             | some tb => some tb
             | none => s.getTableByNumber vendorId t) with
      | none => .error "Invalid table - table does not exist"
      | some tb =>
        if tb.vendorId = vendorId then .ok (some tb.id)
        else .error "Invalid table - table does not belong to this vendor"

/-- One pass of the merge loop body: find the first existing item with the
incoming item's `menuItemId`; if present add the quantities in place,
otherwise push the incoming item at the end. -/
def addIncomingItem : List OrderItem → OrderItem → List OrderItem
  | [], ni => [ni]
  | it :: rest, ni =>
    if it.menuItemId = ni.menuItemId then
      { it with quantity := it.quantity + ni.quantity } :: rest
    else it :: addIncomingItem rest ni

/-- The merge loop of the `POST /api/orders` merge branch: start from the
existing items and fold the incoming items in. -/
def mergeItems (existingItems newItems : List OrderItem) : List OrderItem :=
  newItems.foldl addIncomingItem existingItems

/-- `items.reduce((sum, item) => sum + parseFloat(item.price) * item.quantity, 0)`
in cents. -/
def computeTotal (items : List OrderItem) : Nat :=
  items.foldl (fun sum i => sum + i.price * i.quantity) 0

/-- The new-order branch of `POST /api/orders`: ask the allocator for the
next number, insert a row with column defaults `status = "new"`,
`archived = false`, emit `NEW_ORDER`.  `freshId` stands for the generated
row id, `now` for the insertion timestamp. -/
def createNewOrder (st : ServerState) (req : InsertOrderReq)
    (actualTableId : Option String) (freshId : String) (now : Nat) :
    HandlerResult :=
  let orderNumber := st.store.getNextOrderNumber req.vendorId
  let order : Order :=
    { id := freshId, vendorId := req.vendorId, tableId := actualTableId,
      orderNumber := orderNumber, status := "new", items := req.items,
      totalAmount := req.totalAmount, customerName := req.customerName,
      archived := false, createdAt := now, completedAt := none }
  { response := .ok order,
    state := { st with store :=
      { st.store with orders := st.store.orders ++ [order] } },
    events := [(req.vendorId, .NEW_ORDER order)] }

/-- `POST /api/orders`: validate the body, resolve the table reference, and
either merge into the table's active order (status `new`/`preparing`/`ready`
among the vendor's non-archived orders) or create a new order. -/
def placeOrder (st : ServerState) (req : InsertOrderReq) (freshId : String)
    (now : Nat) : HandlerResult :=
  if !insertOrderSchemaOk req then
    { response := .badRequest "Invalid order data", state := st, events := [] }
  else
    match resolveTable st.store req.vendorId req.tableId with
    | .error msg =>
      { response := .badRequest msg, state := st, events := [] }
    | .ok none => createNewOrder st req none freshId now
    | .ok (some tid) =>
      match (st.store.getOrders req.vendorId false).find? (fun o =>
          decide (o.tableId = some tid) && isActiveStatus o.status) with
      | none => createNewOrder st req (some tid) freshId now
      | some activeOrderForTable =>
        let mergedItems := mergeItems activeOrderForTable.items req.items
        let newTotal := computeTotal mergedItems
        let r := st.store.updateOrderItems activeOrderForTable.id
          mergedItems newTotal
        match r.1 with
        | some updatedOrder =>
          { response := .ok updatedOrder,
            state := { st with store := r.2 },
            events := [(req.vendorId, .ORDER_UPDATE updatedOrder)] }
        | none =>
          { response := .okEmpty, state := { st with store := r.2 },
            events := [] }

/-- The bill row `PATCH /api/orders/:id/status` inserts on the first
completion: snapshot of the (updated) order, items without `menuItemId`,
`tableNumber` denormalized via `getTable` when the order has a table. -/
def mkBillFromOrder (s : Storage) (order : Order) : Bill :=
  { orderId := order.id, vendorId := order.vendorId,
    orderNumber := order.orderNumber,
    tableNumber :=
      match order.tableId with
      | some tid =>
        (match s.getTable tid with
         | some t => some t.tableNumber
         | none => none)
      | none => none,
    items := order.items.map (fun i =>
      { name := i.name, price := i.price, quantity := i.quantity }),
    totalAmount := order.totalAmount, customerName := order.customerName }

/-- The fixed delay of the archival `setTimeout` (60 seconds). -/
def archiveDelayMs : Nat := 60000

/-- `PATCH /api/orders/:id/status`: reject statuses outside the fixed set;
cancel any pending archival timer for the order; update the row (404 when
absent); on `completed`, create a bill unless one already exists for the
order and arm a 60-second archival timer; emit `ORDER_UPDATE`. -/
def setStatus (st : ServerState) (orderId status : String) (now : Nat) :
    HandlerResult :=
  if !(["new", "preparing", "ready", "completed"].contains status) then
    { response := .badRequest "Invalid status", state := st, events := [] }
  else
    let timers1 := st.timers.filter (fun t => decide (¬t.orderId = orderId))
    let r := st.store.updateOrderStatus orderId status now
    match r.1 with
    | none =>
      { response := .notFound "Order not found",
        state := { store := r.2, timers := timers1 }, events := [] }
    | some order =>
      let store2 :=
        if status = "completed" then
          match r.2.getBillByOrderId orderId with
          | some _ => r.2
          | none =>
            { r.2 with bills := r.2.bills ++ [mkBillFromOrder r.2 order] }
        else r.2
      let timers2 :=
        if status = "completed" then
          timers1 ++ [{ orderId := orderId, delayMs := archiveDelayMs }]
        else timers1
      { response := .ok order,
        state := { store := store2, timers := timers2 },
        events := [(order.vendorId, .ORDER_UPDATE order)] }

/-- The archival `setTimeout` callback: drop the timer entry, re-fetch the
order, and only when it still exists with status `completed` set
`archived = true` and emit `ORDER_ARCHIVED` to the vendor id captured when
the timer was armed; otherwise skip silently.  No response is produced and
no event is emitted on the skip paths. -/
def fireArchiveTimer (st : ServerState) (orderId capturedVendorId : String) :
    ServerState × List (String × Event) :=
  let timers1 := st.timers.filter (fun t => decide (¬t.orderId = orderId))
  match st.store.getOrder orderId with
  | some currentOrder =>
    if currentOrder.status = "completed" then
      let r := st.store.archiveOrder orderId
      match r.1 with
      | some _ =>
        ({ store := r.2, timers := timers1 },
         [(capturedVendorId, .ORDER_ARCHIVED orderId)])
      | none => ({ store := r.2, timers := timers1 }, [])
    else ({ st with timers := timers1 }, [])
  | none => ({ st with timers := timers1 }, [])

/-- Body item of `PATCH /api/orders/:id/items`: the handler reads only
`menuItemId` and `quantity`; any caller-supplied `name`/`price` is carried
here to show it is ignored. -/
structure RawItem where
  menuItemId : String
  name : String
  price : Nat
  quantity : Nat
deriving DecidableEq, Repr

/-- The validation loop of `PATCH /api/orders/:id/items`: walk the items in
order, reject a missing `menuItemId` or a non-positive quantity, re-resolve
each price from the canonical menu item (failing when it no longer exists),
and accumulate the validated items and the running total. -/
def validateItemsGo (s : Storage) (acc : List OrderItem) (total : Nat) :
    List RawItem → Except String (List OrderItem × Nat)
  | [] => .ok (acc, total)
  | it :: rest =>
    if it.menuItemId = "" ∨ it.quantity = 0 then
      .error "Invalid item: missing menuItemId or invalid quantity"
    else
      match s.getMenuItem it.menuItemId with
      | none => .error ("Menu item " ++ it.menuItemId ++ " not found")
      | some menuItem =>
        validateItemsGo s
          (acc ++ [{ menuItemId := menuItem.id, name := menuItem.name,
                     price := menuItem.price, quantity := it.quantity }])
          (total + menuItem.price * it.quantity) rest

/-- `PATCH /api/orders/:id/items`: reject an empty list, 404 when the order
is absent, validate and re-price every item from the menu, then persist the
validated items with the recomputed total and emit `ORDER_UPDATE`. -/
def updateItems (st : ServerState) (orderId : String) (items : List RawItem) :
    HandlerResult :=
  if items.isEmpty then
    { response := .badRequest "Order must have at least one item",
      state := st, events := [] }
  else
    match st.store.getOrder orderId with
    | none =>
      { response := .notFound "Order not found", state := st, events := [] }
    | some _ =>
      match validateItemsGo st.store [] 0 items with
      | .error msg =>
        { response := .badRequest msg, state := st, events := [] }
      | .ok validated =>
        let r := st.store.updateOrderItems orderId validated.1 validated.2
        match r.1 with
        | none =>
          { response := .serverError "Failed to update order",
            state := { st with store := r.2 }, events := [] }
        | some order =>
          { response := .ok order, state := { st with store := r.2 },
            events := [(order.vendorId, .ORDER_UPDATE order)] }

/-- The `vendorConnections` map: vendor id to the list of connection ids
registered under it (`Map<string, WebSocket[]>`). -/
abbrev VendorConnections : Type := List (String × List Nat)

/-- `vendorConnections.get(vendorId) || []`. -/
def lookupConns (m : VendorConnections) (vendorId : String) : List Nat :=
  match m.find? (fun p => decide (p.1 = vendorId)) with
  | some p => p.2
  | none => []

/-- The `wss.on('connection')` registration: push the connection under the
`vendorId` query parameter, creating the entry when absent. -/
def subscribeConn (m : VendorConnections) (vendorId : String) (conn : Nat) :
    VendorConnections :=
  if (m.find? (fun p => decide (p.1 = vendorId))).isSome then
    m.map (fun p => if p.1 = vendorId then (p.1, p.2 ++ [conn]) else p)
  else m ++ [(vendorId, [conn])]

/-- `broadcastToVendor(vendorId, message)`: the connections the message is
sent to — those registered under exactly `vendorId` whose
`readyState === WebSocket.OPEN` (`isOpen`). -/
def broadcastRecipients (m : VendorConnections) (isOpen : Nat → Bool)
    (vendorId : String) : List Nat :=
  (lookupConns m vendorId).filter isOpen

/-- One sequential transition of the order core: any of the three order
endpoints or an archival-timer callback. -/
inductive Step : ServerState → ServerState → Prop
  | place (st : ServerState) (req : InsertOrderReq) (freshId : String)
      (now : Nat) : Step st (placeOrder st req freshId now).state
  | status (st : ServerState) (orderId s : String) (now : Nat) :
      Step st (setStatus st orderId s now).state
  | editItems (st : ServerState) (orderId : String) (items : List RawItem) :
      Step st (updateItems st orderId items).state
  | fire (st : ServerState) (orderId capturedVendorId : String) :
      Step st (fireArchiveTimer st orderId capturedVendorId).1

/-- Any finite sequence of sequential transitions. -/
def Reachable : ServerState → ServerState → Prop :=
  Relation.ReflTransGen Step

/-- Row ids are pairwise distinct (the `orders.id` primary key). -/
def IdsUnique (s : Storage) : Prop :=
  s.orders.Pairwise (fun a b => a.id ≠ b.id)

/-- At most one bill per order id (the `bills.orderId` unique constraint). -/
def BillsAtMostOne (s : Storage) : Prop :=
  s.bills.Pairwise (fun a b => a.orderId ≠ b.orderId)

/-- At most one pending archival timer per order (the `archiveTimers` map
keyed by order id). -/
def TimersNodup (st : ServerState) : Prop :=
  (st.timers.map (fun t => t.orderId)).Nodup

instance (s : Storage) : Decidable (IdsUnique s) :=
  inferInstanceAs (Decidable (s.orders.Pairwise _))

instance (s : Storage) : Decidable (BillsAtMostOne s) :=
  inferInstanceAs (Decidable (s.bills.Pairwise _))

instance (st : ServerState) : Decidable (TimersNodup st) :=
  inferInstanceAs (Decidable (List.Nodup _))

/-- Total quantity carried by the items with a given `menuItemId`. -/
def qtyOf (l : List OrderItem) (menuItemId : String) : Nat :=
  (l.map (fun i => if i.menuItemId = menuItemId then i.quantity else 0)).sum

/-- Sum of price times quantity, the specification-level reading of the
total. -/
def sumPriceQty (l : List OrderItem) : Nat :=
  (l.map (fun i => i.price * i.quantity)).sum


/-! Concrete fixtures used to instantiate the theorems on executable
inputs. -/

/-- A server with an empty database and no pending timers. -/
def fixEmptyState : ServerState := { store := ⟨[], [], [], []⟩, timers := [] }

/-- An empty database. -/
def fixEmptyStorage : Storage := ⟨[], [], [], []⟩

/-- Table T1 of vendor v1. -/
def fixTable1 : Table := { id := "tbl1", vendorId := "v1", tableNumber := "T1" }

/-- An active (status `new`) order for table T1: one Tea at 2.00. -/
def fixActiveOrder : Order :=
  { id := "o1", vendorId := "v1", tableId := some "tbl1", orderNumber := 1,
    status := "new", items := [⟨"m1", "Tea", 200, 1⟩], totalAmount := 200,
    customerName := none, archived := false, createdAt := 5,
    completedAt := none }

/-- A server holding `fixActiveOrder` and table T1. -/
def fixStActive : ServerState :=
  { store := ⟨[fixActiveOrder], [], [fixTable1], []⟩, timers := [] }

/-- A follow-up request for table T1 (given by table number): two more
Teas. -/
def fixReqMerge : InsertOrderReq :=
  { vendorId := "v1", tableId := some "T1",
    items := [⟨"m1", "Tea", 200, 2⟩], totalAmount := 400,
    customerName := none }

/-- A completed, not yet archived order. -/
def fixCompletedOrder : Order :=
  { id := "o1", vendorId := "v1", tableId := none, orderNumber := 1,
    status := "completed", items := [⟨"m1", "Tea", 200, 3⟩],
    totalAmount := 600, customerName := none, archived := false,
    createdAt := 0, completedAt := some 10 }

/-- A server holding only `fixCompletedOrder`. -/
def fixStCompleted : ServerState :=
  { store := ⟨[fixCompletedOrder], [], [], []⟩, timers := [] }

/-- `fixStCompleted` with a pending archival timer for the order. -/
def fixStDone : ServerState :=
  { store := ⟨[fixCompletedOrder], [], [], []⟩,
    timers := [⟨"o1", 60000⟩] }

/-- An archived completed order. -/
def fixArchivedOrder : Order :=
  { id := "o9", vendorId := "v1", tableId := none, orderNumber := 3,
    status := "completed", items := [⟨"m1", "Tea", 200, 1⟩],
    totalAmount := 200, customerName := none, archived := true,
    createdAt := 0, completedAt := some 10 }

/-- A server holding only the archived order. -/
def fixStArchived : ServerState :=
  { store := ⟨[fixArchivedOrder], [], [], []⟩, timers := [] }

/-- Vendor v1 with an archived order (number 3) and an active one
(number 1): the allocator must return 4. -/
def fixC2Storage : Storage := ⟨[fixArchivedOrder, fixActiveOrder], [], [], []⟩

/-- The bill of `fixCompletedOrder`. -/
def fixBill : Bill :=
  { orderId := "o1", vendorId := "v1", orderNumber := 1, tableNumber := none,
    items := [⟨"Tea", 200, 3⟩], totalAmount := 600, customerName := none }

/-- A server where the completed order already has its bill. -/
def fixStBilled : ServerState :=
  { store := ⟨[fixCompletedOrder], [fixBill], [], []⟩, timers := [] }

/-- The canonical menu item Tea, currently priced 2.50. -/
def fixMenuTea : MenuItem :=
  { id := "m1", vendorId := "v1", name := "Tea", price := 250 }

/-- A server with the active order and the Tea menu item. -/
def fixStMenu : ServerState :=
  { store := ⟨[fixActiveOrder], [], [], [fixMenuTea]⟩, timers := [] }

/-- An item-edit entry carrying a stale caller price (1.11) that the
handler must ignore. -/
def fixRawTea : RawItem :=
  { menuItemId := "m1", name := "Tea", price := 111, quantity := 2 }

/-- A creation request whose caller-supplied total (99.00) disagrees with
the item sum (2.00). -/
def fixReqBogus : InsertOrderReq :=
  { vendorId := "v1", tableId := none, items := [⟨"m1", "Tea", 200, 1⟩],
    totalAmount := 9900, customerName := none }

/-- A creation request with a consistent total. -/
def fixReqTea : InsertOrderReq :=
  { vendorId := "v1", tableId := none, items := [⟨"m1", "Tea", 200, 1⟩],
    totalAmount := 200, customerName := none }

/-- A creation request with an empty items list. -/
def fixReqNoItems : InsertOrderReq :=
  { vendorId := "v1", tableId := none, items := [], totalAmount := 500,
    customerName := none }

/-- Two vendors with their registered connection ids. -/
def fixConns : VendorConnections := [("v1", [1, 2]), ("v2", [3])]

theorem mem_insertCreatedAtDesc {o x : Order} {l : List Order} :
    o ∈ insertCreatedAtDesc x l ↔ o = x ∨ o ∈ l := by
  induction l with
  | nil => simp [insertCreatedAtDesc]
  | cons y ys ih =>
    by_cases h : x.createdAt ≤ y.createdAt <;>
      simp [insertCreatedAtDesc, h, ih] <;> tauto

theorem mem_sortCreatedAtDesc {o : Order} {l : List Order} :
    o ∈ sortCreatedAtDesc l ↔ o ∈ l := by
  induction l with
  | nil => simp [sortCreatedAtDesc]
  | cons y ys ih => simp [sortCreatedAtDesc, mem_insertCreatedAtDesc, ih]

theorem mem_getOrders {s : Storage} {v : String} {inc : Bool} {o : Order} :
    o ∈ s.getOrders v inc ↔
      o ∈ s.orders ∧ o.vendorId = v ∧ (inc || !o.archived) = true := by
  simp only [Storage.getOrders, mem_sortCreatedAtDesc, List.mem_filter,
    Bool.and_eq_true, decide_eq_true_eq, and_assoc]

theorem length_updateById (l : List Order) (id : String) (g : Order → Order) :
    (updateById l id g).length = l.length := by
  simp [updateById]

theorem find?_updateById (l : List Order) (id : String) (g : Order → Order)
    (hg : ∀ x, (g x).id = x.id)
    (hu : l.Pairwise (fun a b => a.id ≠ b.id))
    (o : Order) (ho : o ∈ l) (hid : o.id = id) :
    (updateById l id g).find? (fun x => decide (x.id = id)) = some (g o) := by
  induction l with
  | nil => cases ho
  | cons a t ih =>
    rw [List.pairwise_cons] at hu
    rcases List.mem_cons.mp ho with h | h
    · subst h
      simp [updateById, List.find?, hid, hg]
    · have hne : a.id ≠ o.id := hu.1 o h
      have hane : ¬a.id = id := by rw [← hid]; exact hne
      simpa [updateById, List.find?, hane] using ih hu.2 h

theorem mem_updateById_of_ne {l : List Order} {id : String} {g : Order → Order}
    {o : Order} (ho : o ∈ l) (hne : o.id ≠ id) :
    o ∈ updateById l id g := by
  simp only [updateById, List.mem_map]
  exact ⟨o, ho, by simp [hne]⟩

theorem qtyOf_addIncomingItem (l : List OrderItem) (ni : OrderItem)
    (m : String) :
    qtyOf (addIncomingItem l ni) m =
      qtyOf l m + (if ni.menuItemId = m then ni.quantity else 0) := by
  induction l with
  | nil => simp [addIncomingItem, qtyOf]
  | cons it rest ih =>
    simp only [addIncomingItem]
    by_cases h : it.menuItemId = ni.menuItemId
    · simp only [if_pos h, qtyOf, List.map_cons, List.sum_cons]
      by_cases hm : ni.menuItemId = m
      · have him : it.menuItemId = m := by rw [h, hm]
        simp [him, hm]
        omega
      · have him : ¬it.menuItemId = m := by rw [h]; exact hm
        simp [him, hm]
    · simp only [if_neg h, qtyOf, List.map_cons, List.sum_cons]
      have := ih
      simp only [qtyOf] at this
      omega

theorem qtyOf_mergeItems (ex incoming : List OrderItem) (m : String) :
    qtyOf (mergeItems ex incoming) m = qtyOf ex m + qtyOf incoming m := by
  induction incoming generalizing ex with
  | nil => simp [mergeItems, qtyOf]
  | cons ni rest ih =>
    simp only [mergeItems, List.foldl_cons] at *
    rw [ih (addIncomingItem ex ni), qtyOf_addIncomingItem]
    simp only [qtyOf, List.map_cons, List.sum_cons]
    omega

theorem computeTotal_go (l : List OrderItem) (acc : Nat) :
    l.foldl (fun sum i => sum + i.price * i.quantity) acc =
      acc + sumPriceQty l := by
  induction l generalizing acc with
  | nil => simp [sumPriceQty]
  | cons i rest ih =>
    simp only [List.foldl_cons, sumPriceQty, List.map_cons, List.sum_cons] at *
    rw [ih]
    omega

theorem computeTotal_eq_sumPriceQty (l : List OrderItem) :
    computeTotal l = sumPriceQty l := by
  simpa using computeTotal_go l 0

theorem foldl_max_init_le (l : List Nat) (a : Nat) : a ≤ l.foldl max a := by
  induction l generalizing a with
  | nil => simp
  | cons y ys ih => exact le_trans (le_max_left a y) (ih (max a y))

theorem foldl_max_le {l : List Nat} {x : Nat} (a : Nat) (hx : x ∈ l) :
    x ≤ l.foldl max a := by
  induction l generalizing a with
  | nil => cases hx
  | cons y ys ih =>
    rcases List.mem_cons.mp hx with h | h
    · subst h
      exact le_trans (le_max_right a x) (foldl_max_init_le ys (max a x))
    · exact ih (max a y) h

theorem foldl_max_mem (l : List Nat) (a : Nat) :
    l.foldl max a = a ∨ l.foldl max a ∈ l := by
  induction l generalizing a with
  | nil => simp
  | cons y ys ih =>
    simp only [List.foldl_cons]
    rcases ih (max a y) with h | h
    · rcases Nat.le_total a y with hy | hy
      · rw [h, max_eq_right hy]
        exact Or.inr (List.mem_cons_self y ys)
      · rw [h, max_eq_left hy]
        exact Or.inl rfl
    · exact Or.inr (List.mem_cons_of_mem y h)

theorem lt_getNextOrderNumber {s : Storage} {v : String} {o : Order}
    (ho : o ∈ s.orders) (hv : o.vendorId = v) :
    o.orderNumber < s.getNextOrderNumber v := by
  have hom : o ∈ s.orders.filter (fun x => decide (x.vendorId = v)) :=
    List.mem_filter.mpr ⟨ho, by simp [hv]⟩
  have hmem : o.orderNumber ∈
      (s.orders.filter (fun x => decide (x.vendorId = v))).map
        (fun x => x.orderNumber) :=
    List.mem_map.mpr ⟨o, hom, rfl⟩
  have hlen : ¬(s.orders.filter (fun x => decide (x.vendorId = v))).length = 0 := by
    intro h
    rw [List.length_eq_zero] at h
    rw [h] at hom
    cases hom
  simp only [Storage.getNextOrderNumber, if_neg hlen]
  exact Nat.lt_succ_of_le (foldl_max_le 0 hmem)

theorem getNextOrderNumber_empty {s : Storage} {v : String}
    (h : s.orders.filter (fun o => decide (o.vendorId = v)) = []) :
    s.getNextOrderNumber v = 1 := by
  simp [Storage.getNextOrderNumber, h]

theorem getNextOrderNumber_exists {s : Storage} {v : String}
    (h : s.orders.filter (fun o => decide (o.vendorId = v)) ≠ []) :
    ∃ o ∈ s.orders, o.vendorId = v ∧
      s.getNextOrderNumber v = o.orderNumber + 1 := by
  have hlen : ¬(s.orders.filter (fun o => decide (o.vendorId = v))).length = 0 := by
    intro hl
    exact h (List.length_eq_zero.mp hl)
  have hval : s.getNextOrderNumber v =
      ((s.orders.filter (fun o => decide (o.vendorId = v))).map
        (fun o => o.orderNumber)).foldl max 0 + 1 := by
    simp only [Storage.getNextOrderNumber, if_neg hlen]
  rcases foldl_max_mem ((s.orders.filter (fun o => decide (o.vendorId = v))).map
      (fun o => o.orderNumber)) 0 with h0 | hmem
  · -- the maximum is 0: some vendor order exists and its number is 0
    match hm : s.orders.filter (fun o => decide (o.vendorId = v)) with
    | [] => exact absurd hm h
    | b :: bs =>
      have hbnum : b.orderNumber ∈
          (s.orders.filter (fun o => decide (o.vendorId = v))).map
            (fun o => o.orderNumber) := by
        rw [hm]; simp
      have hb : b.orderNumber ≤ 0 := by
        have := foldl_max_le 0 hbnum
        rw [h0] at this
        exact this
      have hbmem := List.mem_filter.mp (hm ▸ List.mem_cons_self b bs)
      refine ⟨b, hbmem.1, by simpa using hbmem.2, ?_⟩
      rw [hval, h0, Nat.le_zero.mp hb]
  · rcases List.mem_map.mp hmem with ⟨o, homem, hoeq⟩
    have hof := List.mem_filter.mp homem
    exact ⟨o, hof.1, by simpa using hof.2, by rw [hval, hoeq]⟩

theorem getOrder_spec {s : Storage} {id : String} {o : Order}
    (h : s.getOrder id = some o) : o ∈ s.orders ∧ o.id = id := by
  refine ⟨List.mem_of_find?_eq_some h, ?_⟩
  have := List.find?_some h
  simpa using this

theorem updateOrderItems_found {s : Storage} {o : Order}
    (hids : IdsUnique s) (ho : o ∈ s.orders)
    (items : List OrderItem) (total : Nat) :
    (s.updateOrderItems o.id items total).1 =
      some { o with items := items, totalAmount := total } := by
  simpa [Storage.updateOrderItems] using
    find?_updateById s.orders o.id
      (fun x => { x with items := items, totalAmount := total })
      (fun x => rfl) hids o ho rfl

theorem placeOrder_merge_spec {st : ServerState} {req : InsertOrderReq}
    {freshId : String} {now : Nat} {tid : String} {o : Order}
    (hids : IdsUnique st.store)
    (hschema : insertOrderSchemaOk req = true)
    (htable : resolveTable st.store req.vendorId req.tableId = .ok (some tid))
    (hfind : (st.store.getOrders req.vendorId false).find? (fun x =>
      decide (x.tableId = some tid) && isActiveStatus x.status) = some o) :
    placeOrder st req freshId now =
      { response := .ok { o with
                          items := mergeItems o.items req.items,
                          totalAmount := computeTotal (mergeItems o.items req.items) },
        state := { st with
                   store := { st.store with
                              orders := updateById st.store.orders o.id (fun x =>
                                { x with
                                  items := mergeItems o.items req.items,
                                  totalAmount := computeTotal (mergeItems o.items req.items) }) } },
        events := [(req.vendorId, .ORDER_UPDATE { o with
          items := mergeItems o.items req.items,
          totalAmount := computeTotal (mergeItems o.items req.items) })] } := by
  have ho : o ∈ st.store.orders := (mem_getOrders.mp
    (List.mem_of_find?_eq_some hfind)).1
  have hupd := updateOrderItems_found hids ho
    (mergeItems o.items req.items) (computeTotal (mergeItems o.items req.items))
  simp only [Storage.updateOrderItems] at hupd
  simp only [placeOrder, hschema, Bool.not_true, Bool.false_eq_true,
    if_false, htable, hfind, Storage.updateOrderItems, hupd]

theorem placeOrder_create_none_spec {st : ServerState} {req : InsertOrderReq}
    {freshId : String} {now : Nat}
    (hschema : insertOrderSchemaOk req = true)
    (htable : resolveTable st.store req.vendorId req.tableId = .ok none) :
    placeOrder st req freshId now = createNewOrder st req none freshId now := by
  simp only [placeOrder, hschema, Bool.not_true, Bool.false_eq_true,
    if_false, htable]

theorem placeOrder_create_noactive_spec {st : ServerState}
    {req : InsertOrderReq} {freshId : String} {now : Nat} {tid : String}
    (hschema : insertOrderSchemaOk req = true)
    (htable : resolveTable st.store req.vendorId req.tableId = .ok (some tid))
    (hfind : (st.store.getOrders req.vendorId false).find? (fun x =>
      decide (x.tableId = some tid) && isActiveStatus x.status) = none) :
    placeOrder st req freshId now =
      createNewOrder st req (some tid) freshId now := by
  simp only [placeOrder, hschema, Bool.not_true, Bool.false_eq_true,
    if_false, htable, hfind]

theorem setStatus_invalid {st : ServerState} {oid status : String} {now : Nat}
    (h : (["new", "preparing", "ready", "completed"].contains status) = false) :
    setStatus st oid status now =
      { response := .badRequest "Invalid status", state := st, events := [] } := by
  simp only [setStatus, h, Bool.not_false, if_true]

theorem setStatus_notFound {st : ServerState} {oid status : String} {now : Nat}
    (hvalid : (["new", "preparing", "ready", "completed"].contains status) = true)
    (hnone : (st.store.updateOrderStatus oid status now).1 = none) :
    setStatus st oid status now =
      { response := .notFound "Order not found",
        state := { store := (st.store.updateOrderStatus oid status now).2,
                   timers := st.timers.filter (fun t => decide (¬t.orderId = oid)) },
        events := [] } := by
  simp only [Storage.updateOrderStatus] at hnone
  simp only [setStatus, hvalid, Bool.not_true, Bool.false_eq_true, if_false,
    Storage.updateOrderStatus, hnone]

theorem setStatus_found {st : ServerState} {oid status : String} {now : Nat}
    {order : Order}
    (hvalid : (["new", "preparing", "ready", "completed"].contains status) = true)
    (hord : (st.store.updateOrderStatus oid status now).1 = some order) :
    setStatus st oid status now =
      { response := .ok order,
        state :=
          { store :=
              if status = "completed" then
                match (st.store.updateOrderStatus oid status now).2.getBillByOrderId oid with
                | some _ => (st.store.updateOrderStatus oid status now).2
                | none =>
                  { (st.store.updateOrderStatus oid status now).2 with
                    bills := (st.store.updateOrderStatus oid status now).2.bills ++
                      [mkBillFromOrder (st.store.updateOrderStatus oid status now).2 order] }
              else (st.store.updateOrderStatus oid status now).2,
            timers :=
              if status = "completed" then
                st.timers.filter (fun t => decide (¬t.orderId = oid)) ++
                  [{ orderId := oid, delayMs := archiveDelayMs }]
              else st.timers.filter (fun t => decide (¬t.orderId = oid)) },
        events := [(order.vendorId, .ORDER_UPDATE order)] } := by
  simp only [Storage.updateOrderStatus] at hord
  simp only [setStatus, hvalid, Bool.not_true, Bool.false_eq_true, if_false,
    Storage.updateOrderStatus, hord]

theorem updateOrderStatus_found {s : Storage} {o : Order}
    (hids : IdsUnique s) (ho : o ∈ s.orders) (status : String) (now : Nat) :
    (s.updateOrderStatus o.id status now).1 =
      some (statusUpdater status now o) := by
  simpa [Storage.updateOrderStatus] using
    find?_updateById s.orders o.id (statusUpdater status now)
      (fun x => rfl) hids o ho rfl

theorem archiveOrder_found {s : Storage} {o : Order}
    (hids : IdsUnique s) (ho : o ∈ s.orders) :
    (s.archiveOrder o.id).1 = some { o with archived := true } := by
  simpa [Storage.archiveOrder] using
    find?_updateById s.orders o.id (fun x => { x with archived := true })
      (fun x => rfl) hids o ho rfl

theorem fire_completed {st : ServerState} {oid v : String} {cur : Order}
    (hids : IdsUnique st.store)
    (hget : st.store.getOrder oid = some cur)
    (hst : cur.status = "completed") :
    fireArchiveTimer st oid v =
      ({ store := { st.store with
           orders := updateById st.store.orders oid (fun x =>
             { x with archived := true }) },
         timers := st.timers.filter (fun t => decide (¬t.orderId = oid)) },
       [(v, .ORDER_ARCHIVED oid)]) := by
  obtain ⟨hmem, hid⟩ := getOrder_spec hget
  have harc : (st.store.archiveOrder oid).1 = some { cur with archived := true } := by
    rw [← hid]
    exact archiveOrder_found hids hmem
  simp only [Storage.archiveOrder] at harc
  simp only [fireArchiveTimer, hget, hst, if_pos, Storage.archiveOrder, harc,
    hid]

theorem fire_skip_status {st : ServerState} {oid v : String} {cur : Order}
    (hget : st.store.getOrder oid = some cur)
    (hst : ¬cur.status = "completed") :
    fireArchiveTimer st oid v =
      ({ st with timers := st.timers.filter (fun t => decide (¬t.orderId = oid)) },
       []) := by
  simp only [fireArchiveTimer, hget, hst, if_false]

theorem fire_skip_missing {st : ServerState} {oid v : String}
    (hget : st.store.getOrder oid = none) :
    fireArchiveTimer st oid v =
      ({ st with timers := st.timers.filter (fun t => decide (¬t.orderId = oid)) },
       []) := by
  simp only [fireArchiveTimer, hget]

/-- The canonical-reprice relation between a request item and a validated
item: the validated entry copies the menu item's id, name and price and the
request's quantity. -/
def CanonicalItem (s : Storage) (it : RawItem) (vi : OrderItem) : Prop :=
  ∃ mi, s.getMenuItem it.menuItemId = some mi ∧
    vi = { menuItemId := mi.id, name := mi.name, price := mi.price,
           quantity := it.quantity }

theorem validateItemsGo_ok_spec {s : Storage} {items : List RawItem}
    {acc : List OrderItem} {t : Nat} {vs : List OrderItem} {tot : Nat}
    (h : validateItemsGo s acc t items = .ok (vs, tot)) :
    ∃ tail, vs = acc ++ tail ∧ tot = t + sumPriceQty tail ∧
      List.Forall₂ (CanonicalItem s) items tail := by
  induction items generalizing acc t with
  | nil =>
    simp only [validateItemsGo] at h
    obtain ⟨h1, h2⟩ := Prod.mk.injEq .. ▸ (Except.ok.injEq _ _ ▸ h)
    exact ⟨[], by simp [← h1], by simp [← h2, sumPriceQty], List.Forall₂.nil⟩
  | cons it rest ih =>
    simp only [validateItemsGo] at h
    by_cases hbad : it.menuItemId = "" ∨ it.quantity = 0
    · rw [if_pos hbad] at h
      cases h
    · rw [if_neg hbad] at h
      match hmi : s.getMenuItem it.menuItemId with
      | none => rw [hmi] at h; cases h
      | some mi =>
        rw [hmi] at h
        obtain ⟨tail, htl, htot, hall⟩ := ih h
        refine ⟨{ menuItemId := mi.id, name := mi.name, price := mi.price,
                  quantity := it.quantity } :: tail, ?_, ?_, ?_⟩
        · simpa using htl
        · simp only [sumPriceQty, List.map_cons, List.sum_cons] at *
          omega
        · exact List.Forall₂.cons ⟨mi, hmi, rfl⟩ hall

theorem validateItemsGo_missing {s : Storage} {items : List RawItem}
    (hshape : ∀ it ∈ items, ¬(it.menuItemId = "" ∨ it.quantity = 0))
    (hmiss : ∃ it ∈ items, s.getMenuItem it.menuItemId = none)
    (acc : List OrderItem) (t : Nat) :
    ∃ mid, validateItemsGo s acc t items =
        .error ("Menu item " ++ mid ++ " not found") ∧
      s.getMenuItem mid = none := by
  induction items generalizing acc t with
  | nil => obtain ⟨it, hmem, _⟩ := hmiss; cases hmem
  | cons it rest ih =>
    have hit := hshape it (List.mem_cons_self it rest)
    simp only [validateItemsGo, if_neg hit]
    match hmi : s.getMenuItem it.menuItemId with
    | none => exact ⟨it.menuItemId, rfl, hmi⟩
    | some mi =>
      have hmiss' : ∃ x ∈ rest, s.getMenuItem x.menuItemId = none := by
        obtain ⟨x, hxmem, hxnone⟩ := hmiss
        rcases List.mem_cons.mp hxmem with h | h
        · subst h; rw [hmi] at hxnone; cases hxnone
        · exact ⟨x, h, hxnone⟩
      exact ih (fun x hx => hshape x (List.mem_cons_of_mem it hx)) hmiss' _ _

theorem validateItemsGo_key_only {s : Storage} {items items2 : List RawItem}
    (hkeys : items.map (fun it => (it.menuItemId, it.quantity)) =
      items2.map (fun it => (it.menuItemId, it.quantity)))
    (acc : List OrderItem) (t : Nat) :
    validateItemsGo s acc t items = validateItemsGo s acc t items2 := by
  induction items generalizing items2 acc t with
  | nil =>
    cases items2 with
    | nil => rfl
    | cons b bs => simp at hkeys
  | cons it rest ih =>
    cases items2 with
    | nil => simp at hkeys
    | cons b bs =>
      simp only [List.map_cons, List.cons.injEq, Prod.mk.injEq] at hkeys
      obtain ⟨⟨hid, hq⟩, hrest⟩ := hkeys
      simp only [validateItemsGo, hid, hq]
      by_cases hbad : b.menuItemId = "" ∨ b.quantity = 0
      · simp [hbad]
      · simp only [hbad, if_false]
        cases hmi : s.getMenuItem b.menuItemId with
        | none => simp [hmi]
        | some mi =>
          simp only [hmi]
          exact ih hrest _ _

theorem updateItems_empty {st : ServerState} {oid : String} :
    updateItems st oid [] =
      { response := .badRequest "Order must have at least one item",
        state := st, events := [] } := rfl

theorem updateItems_notFound {st : ServerState} {oid : String}
    {items : List RawItem} (hne : items ≠ [])
    (hget : st.store.getOrder oid = none) :
    updateItems st oid items =
      { response := .notFound "Order not found", state := st, events := [] } := by
  have hemp : items.isEmpty = false := by
    cases items with
    | nil => exact absurd rfl hne
    | cons a l => rfl
  simp only [updateItems, hemp, Bool.false_eq_true, if_false, hget]

theorem updateItems_error {st : ServerState} {oid : String}
    {items : List RawItem} {o : Order} {msg : String} (hne : items ≠ [])
    (hget : st.store.getOrder oid = some o)
    (hval : validateItemsGo st.store [] 0 items = .error msg) :
    updateItems st oid items =
      { response := .badRequest msg, state := st, events := [] } := by
  have hemp : items.isEmpty = false := by
    cases items with
    | nil => exact absurd rfl hne
    | cons a l => rfl
  simp only [updateItems, hemp, Bool.false_eq_true, if_false, hget, hval]

theorem updateItems_ok {st : ServerState} {oid : String}
    {items : List RawItem} {o : Order} {vs : List OrderItem} {tot : Nat}
    (hids : IdsUnique st.store) (hne : items ≠ [])
    (hget : st.store.getOrder oid = some o)
    (hval : validateItemsGo st.store [] 0 items = .ok (vs, tot)) :
    updateItems st oid items =
      { response := .ok { o with items := vs, totalAmount := tot },
        state := { st with
                   store := { st.store with
                              orders := updateById st.store.orders oid (fun x =>
                                { x with items := vs, totalAmount := tot }) } },
        events := [(o.vendorId,
          .ORDER_UPDATE { o with items := vs, totalAmount := tot })] } := by
  obtain ⟨hmem, hid⟩ := getOrder_spec hget
  have hemp : items.isEmpty = false := by
    cases items with
    | nil => exact absurd rfl hne
    | cons a l => rfl
  have hupd : (st.store.updateOrderItems oid vs tot).1 =
      some { o with items := vs, totalAmount := tot } := by
    rw [← hid]
    exact updateOrderItems_found hids hmem vs tot
  simp only [Storage.updateOrderItems] at hupd
  simp only [updateItems, hemp, Bool.false_eq_true, if_false, hget, hval,
    Storage.updateOrderItems, hupd]

theorem placeOrder_bills (st : ServerState) (req : InsertOrderReq)
    (freshId : String) (now : Nat) :
    (placeOrder st req freshId now).state.store.bills = st.store.bills := by
  simp only [placeOrder, createNewOrder, Storage.updateOrderItems]
  repeat' split
  all_goals rfl

theorem placeOrder_timers (st : ServerState) (req : InsertOrderReq)
    (freshId : String) (now : Nat) :
    (placeOrder st req freshId now).state.timers = st.timers := by
  simp only [placeOrder, createNewOrder, Storage.updateOrderItems]
  repeat' split
  all_goals rfl

theorem updateItems_bills (st : ServerState) (oid : String)
    (items : List RawItem) :
    (updateItems st oid items).state.store.bills = st.store.bills := by
  simp only [updateItems, Storage.updateOrderItems]
  repeat' split
  all_goals rfl

theorem updateItems_timers (st : ServerState) (oid : String)
    (items : List RawItem) :
    (updateItems st oid items).state.timers = st.timers := by
  simp only [updateItems, Storage.updateOrderItems]
  repeat' split
  all_goals rfl

theorem fire_bills (st : ServerState) (oid v : String) :
    (fireArchiveTimer st oid v).1.store.bills = st.store.bills := by
  simp only [fireArchiveTimer, Storage.archiveOrder]
  repeat' split
  all_goals rfl

theorem fire_timers (st : ServerState) (oid v : String) :
    (fireArchiveTimer st oid v).1.timers =
      st.timers.filter (fun t => decide (¬t.orderId = oid)) := by
  simp only [fireArchiveTimer, Storage.archiveOrder]
  repeat' split
  all_goals rfl

theorem contains_or_not (status : String) :
    (["new", "preparing", "ready", "completed"].contains status) = true ∨
    (["new", "preparing", "ready", "completed"].contains status) = false := by
  cases ["new", "preparing", "ready", "completed"].contains status
  · exact Or.inr rfl
  · exact Or.inl rfl

theorem setStatus_bills_cases (st : ServerState) (oid status : String)
    (now : Nat) :
    (setStatus st oid status now).state.store.bills = st.store.bills ∨
    ∃ b, (setStatus st oid status now).state.store.bills =
        st.store.bills ++ [b] ∧ b.orderId = oid ∧
        ∀ b' ∈ st.store.bills, ¬b'.orderId = oid := by
  rcases contains_or_not status with hv | hv
  · match hord : (st.store.updateOrderStatus oid status now).1 with
    | none => rw [setStatus_notFound hv hord]; exact Or.inl rfl
    | some order =>
      rw [setStatus_found hv hord]
      by_cases hc : status = "completed"
      · simp only [hc, if_pos rfl]
        match hb : (st.store.updateOrderStatus oid "completed" now).2.getBillByOrderId oid with
        | some b0 => exact Or.inl rfl
        | none =>
          refine Or.inr ⟨mkBillFromOrder
            (st.store.updateOrderStatus oid "completed" now).2 order, rfl, ?_, ?_⟩
          · have := List.find?_some (hc ▸ hord)
            simpa [Storage.updateOrderStatus, mkBillFromOrder] using this
          · intro b' hb'
            have hnone := List.find?_eq_none.mp hb
            have : b' ∈ (st.store.updateOrderStatus oid "completed" now).2.bills := hb'
            simpa using hnone b' this
      · simp only [if_neg hc]
        exact Or.inl rfl
  · rw [setStatus_invalid hv]
    exact Or.inl rfl

theorem setStatus_timers_cases (st : ServerState) (oid status : String)
    (now : Nat) :
    (setStatus st oid status now).state.timers = st.timers ∨
    (setStatus st oid status now).state.timers =
      st.timers.filter (fun t => decide (¬t.orderId = oid)) ∨
    (setStatus st oid status now).state.timers =
      st.timers.filter (fun t => decide (¬t.orderId = oid)) ++
        [{ orderId := oid, delayMs := archiveDelayMs }] := by
  rcases contains_or_not status with hv | hv
  · match hord : (st.store.updateOrderStatus oid status now).1 with
    | none => rw [setStatus_notFound hv hord]; exact Or.inr (Or.inl rfl)
    | some order =>
      rw [setStatus_found hv hord]
      by_cases hc : status = "completed"
      · simp [hc]
      · simp [hc]
  · rw [setStatus_invalid hv]
    exact Or.inl rfl

theorem nodup_filter_timer {st : ServerState} (h : TimersNodup st)
    (oid : String) :
    ((st.timers.filter (fun t => decide (¬t.orderId = oid))).map
      (fun t => t.orderId)).Nodup := by
  have hsub : List.Sublist
      ((st.timers.filter (fun t => decide (¬t.orderId = oid))).map
        (fun t => t.orderId))
      (st.timers.map (fun t => t.orderId)) :=
    (List.filter_sublist _).map _
  exact h.sublist hsub

theorem nodup_filter_append_timer {st : ServerState} (h : TimersNodup st)
    (oid : String) (d : Nat) :
    (((st.timers.filter (fun t => decide (¬t.orderId = oid))) ++
      [ArchiveTimer.mk oid d]).map (fun t => t.orderId)).Nodup := by
  rw [List.map_append]
  refine List.Nodup.append (nodup_filter_timer h oid) (by simp) ?_
  intro a ha hb
  simp only [List.map_cons, List.map_nil, List.mem_singleton] at hb
  subst hb
  rcases List.mem_map.mp ha with ⟨t, htmem, hteq⟩
  have := List.of_mem_filter htmem
  simp only [decide_eq_true_eq] at this
  exact this (by rw [hteq])

theorem step_preserves_timersNodup {st1 st2 : ServerState}
    (hstep : Step st1 st2) (h : TimersNodup st1) : TimersNodup st2 := by
  cases hstep with
  | place req freshId now =>
    show TimersNodup (placeOrder st1 req freshId now).state
    unfold TimersNodup
    rw [placeOrder_timers]
    exact h
  | status oid s now =>
    show TimersNodup (setStatus st1 oid s now).state
    unfold TimersNodup
    rcases setStatus_timers_cases st1 oid s now with h1 | h1 | h1 <;> rw [h1]
    · exact h
    · exact nodup_filter_timer h oid
    · exact nodup_filter_append_timer h oid archiveDelayMs
  | editItems oid items =>
    show TimersNodup (updateItems st1 oid items).state
    unfold TimersNodup
    rw [updateItems_timers]
    exact h
  | fire oid v =>
    show TimersNodup (fireArchiveTimer st1 oid v).1
    unfold TimersNodup
    rw [fire_timers]
    exact nodup_filter_timer h oid

theorem step_bills_mono {st1 st2 : ServerState} (hstep : Step st1 st2) :
    ∀ b ∈ st1.store.bills, b ∈ st2.store.bills := by
  cases hstep with
  | place req freshId now =>
    intro b hb
    rw [placeOrder_bills]
    exact hb
  | status oid s now =>
    intro b hb
    rcases setStatus_bills_cases st1 oid s now with h1 | ⟨b0, h1, _, _⟩ <;> rw [h1]
    · exact hb
    · exact List.mem_append_left _ hb
  | editItems oid items =>
    intro b hb
    rw [updateItems_bills]
    exact hb
  | fire oid v =>
    intro b hb
    rw [fire_bills]
    exact hb

theorem step_preserves_billsAtMostOne {st1 st2 : ServerState}
    (hstep : Step st1 st2) (h : BillsAtMostOne st1.store) :
    BillsAtMostOne st2.store := by
  cases hstep with
  | place req freshId now =>
    show BillsAtMostOne (placeOrder st1 req freshId now).state.store
    unfold BillsAtMostOne
    rw [placeOrder_bills]
    exact h
  | status oid s now =>
    show BillsAtMostOne (setStatus st1 oid s now).state.store
    unfold BillsAtMostOne
    rcases setStatus_bills_cases st1 oid s now with h1 | ⟨b0, h1, hbid, hfresh⟩ <;>
      rw [h1]
    · exact h
    · rw [List.pairwise_append]
      refine ⟨h, by simp, ?_⟩
      intro a ha b hb
      simp only [List.mem_singleton] at hb
      subst hb
      rw [hbid]
      exact hfresh a ha
  | editItems oid items =>
    show BillsAtMostOne (updateItems st1 oid items).state.store
    unfold BillsAtMostOne
    rw [updateItems_bills]
    exact h
  | fire oid v =>
    show BillsAtMostOne (fireArchiveTimer st1 oid v).1.store
    unfold BillsAtMostOne
    rw [fire_bills]
    exact h

theorem reachable_preserves_billsAtMostOne {st1 st2 : ServerState}
    (hr : Reachable st1 st2) (h : BillsAtMostOne st1.store) :
    BillsAtMostOne st2.store := by
  induction hr with
  | refl => exact h
  | tail _ hstep ih => exact step_preserves_billsAtMostOne hstep ih

theorem updateOrderStatus_bills (s : Storage) (id status : String)
    (now : Nat) : (s.updateOrderStatus id status now).2.bills = s.bills := rfl

theorem updateOrderStatus_getBill (s : Storage) (id status : String)
    (now : Nat) (oid : String) :
    (s.updateOrderStatus id status now).2.getBillByOrderId oid =
      s.getBillByOrderId oid := rfl

theorem setStatus_found_orders {st : ServerState} {oid status : String}
    {now : Nat} {order : Order}
    (hvalid : (["new", "preparing", "ready", "completed"].contains status) = true)
    (hord : (st.store.updateOrderStatus oid status now).1 = some order) :
    (setStatus st oid status now).state.store.orders =
      updateById st.store.orders oid (statusUpdater status now) := by
  rw [setStatus_found hvalid hord]
  by_cases hc : status = "completed"
  · simp only [hc, if_pos]
    match hb : (st.store.updateOrderStatus oid "completed" now).2.getBillByOrderId oid with
    | some _ => rfl
    | none => rfl
  · simp only [if_neg hc]
    rfl

theorem filter_cancelled (l : List ArchiveTimer) (oid : String) :
    (l.filter (fun t => decide (¬t.orderId = oid))).filter
      (fun t => decide (t.orderId = oid)) = [] := by
  induction l with
  | nil => rfl
  | cons a t ih => by_cases h : a.orderId = oid <;> simp [h, ih]

/-- C1: when a placeOrder request resolves to a table that has an active
order (status `new`/`preparing`/`ready` among the vendor's non-archived
orders), no new order is created: the incoming items are merged into the
existing order (same-`menuItemId` quantities added, new items appended),
`totalAmount` is recomputed as the sum of price times quantity over the
merged list, and the returned order keeps the existing order's `id` and
`orderNumber`. -/
theorem C1_merge_into_active_order (st : ServerState) (req : InsertOrderReq)
    (freshId : String) (now : Nat) (tid : String) (o : Order)
    (hids : IdsUnique st.store)
    (hschema : insertOrderSchemaOk req = true)
    (htable : resolveTable st.store req.vendorId req.tableId = .ok (some tid))
    (hfind : (st.store.getOrders req.vendorId false).find? (fun x =>
      decide (x.tableId = some tid) && isActiveStatus x.status) = some o) :
    ∃ u, (placeOrder st req freshId now).response = .ok u ∧
      u.id = o.id ∧ u.orderNumber = o.orderNumber ∧
      u.items = mergeItems o.items req.items ∧
      (∀ m, qtyOf u.items m = qtyOf o.items m + qtyOf req.items m) ∧
      u.totalAmount = sumPriceQty u.items ∧
      (placeOrder st req freshId now).state.store.orders.length =
        st.store.orders.length := by
  have hspec := @placeOrder_merge_spec st req freshId now tid o hids hschema
    htable hfind
  refine ⟨{ o with
            items := mergeItems o.items req.items,
            totalAmount := computeTotal (mergeItems o.items req.items) },
    by rw [hspec], rfl, rfl, rfl, ?_, ?_, ?_⟩
  · intro m
    exact qtyOf_mergeItems o.items req.items m
  · exact computeTotal_eq_sumPriceQty _
  · rw [hspec]
    exact length_updateById _ _ _

/-- Witness for C1: merging a two-Tea request into the one-Tea active order
of table T1 yields the same order with quantity 3 and total 6.00, and no
second order. -/
theorem C1_merge_witness :
    ∃ u, (placeOrder fixStActive fixReqMerge "o2" 9).response = .ok u ∧
      u.id = fixActiveOrder.id ∧ u.orderNumber = fixActiveOrder.orderNumber ∧
      u.items = mergeItems fixActiveOrder.items fixReqMerge.items ∧
      (∀ m, qtyOf u.items m =
        qtyOf fixActiveOrder.items m + qtyOf fixReqMerge.items m) ∧
      u.totalAmount = sumPriceQty u.items ∧
      (placeOrder fixStActive fixReqMerge "o2" 9).state.store.orders.length =
        fixStActive.store.orders.length :=
  C1_merge_into_active_order fixStActive fixReqMerge "o2" 9 "tbl1"
    fixActiveOrder (by decide) (by decide) rfl (by decide)

/-- C2: the order-number allocator returns 1 for a vendor with no orders
and max(orderNumber) + 1 over all of the vendor's orders (archived ones
included) otherwise, so every existing order number of the vendor —
archived or not — is strictly below the allocated one, and a newly created
order receives exactly that number. -/
theorem C2_next_order_number (s : Storage) (v : String) :
    (s.orders.filter (fun o => decide (o.vendorId = v)) = [] →
      s.getNextOrderNumber v = 1) ∧
    (∀ o ∈ s.orders, o.vendorId = v → o.orderNumber < s.getNextOrderNumber v) ∧
    (s.orders.filter (fun o => decide (o.vendorId = v)) ≠ [] →
      ∃ o ∈ s.orders, o.vendorId = v ∧
        s.getNextOrderNumber v = o.orderNumber + 1) ∧
    (∀ (st : ServerState) (req : InsertOrderReq) (freshId : String) (now : Nat),
      st.store = s → req.vendorId = v →
      insertOrderSchemaOk req = true →
      resolveTable st.store req.vendorId req.tableId = .ok none →
      ∃ u, (placeOrder st req freshId now).response = .ok u ∧
        u.orderNumber = s.getNextOrderNumber v ∧
        ∀ o ∈ s.orders, o.vendorId = v → o.orderNumber < u.orderNumber) := by
  refine ⟨getNextOrderNumber_empty,
    fun o ho hv => lt_getNextOrderNumber ho hv,
    getNextOrderNumber_exists, ?_⟩
  intro st req freshId now hst hv hschema htable
  rw [placeOrder_create_none_spec hschema htable]
  refine ⟨_, rfl, ?_, ?_⟩
  · show st.store.getNextOrderNumber req.vendorId = s.getNextOrderNumber v
    rw [hst, hv]
  · intro o ho hov
    show o.orderNumber < st.store.getNextOrderNumber req.vendorId
    rw [hst, hv]
    exact lt_getNextOrderNumber ho hov

/-- Witness for C2: with an archived order numbered 3 and an active order
numbered 1, the allocator returns a number above 3 (never reusing the
archived number), and on an empty store it returns 1. -/
theorem C2_witness :
    3 < fixC2Storage.getNextOrderNumber "v1" ∧
    fixEmptyStorage.getNextOrderNumber "v1" = 1 :=
  ⟨(C2_next_order_number fixC2Storage "v1").2.1 fixArchivedOrder (by decide)
    (by decide),
   (C2_next_order_number fixEmptyStorage "v1").1 (by decide)⟩

/-- C3: completing an order arms one archival timer with the 60-second
delay after cancelling any pending timer for that order; every accepted
setStatus call cancels pending timers for the order first, and the pending
set keeps at most one timer per order across every transition; when the
timer fires, the order is re-fetched and archived exactly when its status
is still `completed`, with `ORDER_ARCHIVED` emitted exactly on success;
when the status changed away (or the order vanished) nothing is archived,
nothing is emitted, and no error reaches a client. -/
theorem C3_archival_timer (st : ServerState) (oid v : String) (now : Nat) :
    (∀ order, (st.store.updateOrderStatus oid "completed" now).1 = some order →
      (setStatus st oid "completed" now).state.timers =
        st.timers.filter (fun t => decide (¬t.orderId = oid)) ++
          [{ orderId := oid, delayMs := archiveDelayMs }]) ∧
    (∀ status,
      (["new", "preparing", "ready", "completed"].contains status) = true →
      (setStatus st oid status now).state.timers.filter
          (fun t => decide (t.orderId = oid)) =
        (if status = "completed" ∧
            ((st.store.updateOrderStatus oid status now).1).isSome = true
         then [{ orderId := oid, delayMs := archiveDelayMs }] else [])) ∧
    (∀ st1 st2, Step st1 st2 → TimersNodup st1 → TimersNodup st2) ∧
    (∀ cur, IdsUnique st.store → st.store.getOrder oid = some cur →
      cur.status = "completed" →
      (fireArchiveTimer st oid v).1.store.getOrder oid =
          some { cur with archived := true } ∧
        (fireArchiveTimer st oid v).2 = [(v, .ORDER_ARCHIVED oid)]) ∧
    (∀ cur, st.store.getOrder oid = some cur → ¬cur.status = "completed" →
      (fireArchiveTimer st oid v).1.store = st.store ∧
        (fireArchiveTimer st oid v).2 = []) ∧
    (st.store.getOrder oid = none →
      (fireArchiveTimer st oid v).1.store = st.store ∧
        (fireArchiveTimer st oid v).2 = []) ∧
    ((fireArchiveTimer st oid v).1.timers =
      st.timers.filter (fun t => decide (¬t.orderId = oid))) := by
  refine ⟨?_, ?_, ?_, ?_, ?_, ?_, ?_⟩
  · intro order hord
    rw [setStatus_found (by decide) hord]
    simp
  · intro status hvalid
    match hord : (st.store.updateOrderStatus oid status now).1 with
    | none =>
      rw [setStatus_notFound hvalid hord]
      have : ¬(status = "completed" ∧
          (Option.none (α := Order)).isSome = true) := by
        intro h
        cases h.2
      rw [if_neg this]
      exact filter_cancelled st.timers oid
    | some order =>
      rw [setStatus_found hvalid hord]
      by_cases hc : status = "completed"
      · simp only [hc, if_pos, Option.isSome_some, and_self, if_true,
          List.filter_append, filter_cancelled]
        simp
      · simp only [if_neg hc]
        have : ¬(status = "completed" ∧
            (Option.some order).isSome = true) := fun h => hc h.1
        rw [if_neg this]
        exact filter_cancelled st.timers oid
  · exact fun st1 st2 hs h => step_preserves_timersNodup hs h
  · intro cur hids hget hst
    obtain ⟨hmem, hid⟩ := getOrder_spec hget
    rw [fire_completed hids hget hst]
    refine ⟨?_, rfl⟩
    show (updateById st.store.orders oid (fun x =>
      { x with archived := true })).find? (fun x => decide (x.id = oid)) = _
    rw [← hid]
    exact find?_updateById st.store.orders cur.id
      (fun x => { x with archived := true }) (fun x => rfl) hids cur hmem rfl
  · intro cur hget hst
    rw [fire_skip_status hget hst]
    exact ⟨rfl, rfl⟩
  · intro hget
    rw [fire_skip_missing hget]
    exact ⟨rfl, rfl⟩
  · exact fire_timers st oid v

/-- Witness for C3: on a server holding one completed order with its timer
pending, re-completing the order leaves exactly the one freshly armed
60-second timer, and the timer callback archives the order, emits
`ORDER_ARCHIVED`, and drops the timer entry. -/
theorem C3_witness :
    (setStatus fixStDone "o1" "completed" 5).state.timers =
        [{ orderId := "o1", delayMs := 60000 }] ∧
      (fireArchiveTimer fixStDone "o1" "v1").1.store.getOrder "o1" =
        some { fixCompletedOrder with archived := true } ∧
      (fireArchiveTimer fixStDone "o1" "v1").2 =
        [("v1", .ORDER_ARCHIVED "o1")] ∧
      (fireArchiveTimer fixStDone "o1" "v1").1.timers = [] := by
  have h := C3_archival_timer fixStDone "o1" "v1" 5
  have h1 := h.1 (statusUpdater "completed" 5 fixCompletedOrder) (by decide)
  have h4 := h.2.2.2.1 fixCompletedOrder (by decide) (by decide) rfl
  exact ⟨h1.trans (by decide), h4.1, h4.2, (h.2.2.2.2.2.2).trans (by decide)⟩

/-- C4: at most one bill ever exists per order: every transition leaves
existing bills in place and never rewrites one, the at-most-one-bill-per-
order invariant is preserved along every execution, re-completing an order
whose bill already exists changes no bill, and the first completion of an
order without a bill appends exactly that order's bill. -/
theorem C4_bill_uniqueness :
    (∀ st1 st2, Step st1 st2 → ∀ b ∈ st1.store.bills, b ∈ st2.store.bills) ∧
    (∀ st1 st2, Reachable st1 st2 → BillsAtMostOne st1.store →
      BillsAtMostOne st2.store) ∧
    (∀ (st : ServerState) (oid : String) (now : Nat) (b : Bill),
      st.store.getBillByOrderId oid = some b →
      (setStatus st oid "completed" now).state.store.bills =
        st.store.bills) ∧
    (∀ (st : ServerState) (oid : String) (now : Nat) (order : Order),
      (st.store.updateOrderStatus oid "completed" now).1 = some order →
      st.store.getBillByOrderId oid = none →
      (setStatus st oid "completed" now).state.store.bills =
        st.store.bills ++
          [mkBillFromOrder (st.store.updateOrderStatus oid "completed" now).2
            order]) := by
  refine ⟨fun st1 st2 hs => step_bills_mono hs,
    fun st1 st2 hr h => reachable_preserves_billsAtMostOne hr h, ?_, ?_⟩
  · intro st oid now b hbill
    match hord : (st.store.updateOrderStatus oid "completed" now).1 with
    | none =>
      rw [setStatus_notFound (by decide) hord]
      exact updateOrderStatus_bills st.store oid "completed" now
    | some order =>
      rw [setStatus_found (by decide) hord]
      simp only [if_pos, updateOrderStatus_getBill, hbill]
      exact updateOrderStatus_bills st.store oid "completed" now
  · intro st oid now order hord hnone
    rw [setStatus_found (by decide) hord]
    simp only [if_pos, updateOrderStatus_getBill, hnone]
    rw [updateOrderStatus_bills]

/-- Witness for C4: re-completing the order whose bill already exists
leaves the bills table unchanged. -/
theorem C4_witness :
    (setStatus fixStBilled "o1" "completed" 7).state.store.bills =
      fixStBilled.store.bills :=
  C4_bill_uniqueness.2.2.1 fixStBilled "o1" 7 fixBill (by decide)

/-- Counterexample to C5 as stated: a creation request whose caller total
(99.00) disagrees with the item sum (2.00) is persisted with the caller
total, so after this placeOrder mutation the stored order violates
`totalAmount = Σ price × quantity`. -/
theorem C5_counterexample :
    ∃ u, (placeOrder fixEmptyState fixReqBogus "o1" 0).response = .ok u ∧
      u ∈ (placeOrder fixEmptyState fixReqBogus "o1" 0).state.store.orders ∧
      u.totalAmount = 9900 ∧ sumPriceQty u.items = 200 ∧
      ¬u.totalAmount = sumPriceQty u.items := by
  refine ⟨_, rfl, ?_, by decide, by decide, by decide⟩
  decide

/-- C5 amended: `totalAmount = Σ price × quantity` is recomputed and holds
after the table-scoped merge and after an item edit, but at creation
placeOrder persists the caller-supplied `totalAmount` unchanged (only
format-validated by the schema), so the invariant holds at creation only if
the caller sent a consistent total. -/
theorem C5_total_amount (st : ServerState) (req : InsertOrderReq)
    (freshId : String) (now : Nat) :
    (insertOrderSchemaOk req = true →
      resolveTable st.store req.vendorId req.tableId = .ok none →
      ∃ u, (placeOrder st req freshId now).response = .ok u ∧
        u.totalAmount = req.totalAmount ∧ u.items = req.items) ∧
    (∀ tid o, IdsUnique st.store → insertOrderSchemaOk req = true →
      resolveTable st.store req.vendorId req.tableId = .ok (some tid) →
      (st.store.getOrders req.vendorId false).find? (fun x =>
        decide (x.tableId = some tid) && isActiveStatus x.status) = some o →
      ∃ u, (placeOrder st req freshId now).response = .ok u ∧
        u.totalAmount = sumPriceQty u.items) ∧
    (∀ (oid : String) (items : List RawItem) (o : Order)
        (vs : List OrderItem) (tot : Nat),
      IdsUnique st.store → items ≠ [] →
      st.store.getOrder oid = some o →
      validateItemsGo st.store [] 0 items = .ok (vs, tot) →
      ∃ u, (updateItems st oid items).response = .ok u ∧
        u.totalAmount = sumPriceQty u.items) := by
  refine ⟨?_, ?_, ?_⟩
  · intro hschema htable
    rw [placeOrder_create_none_spec hschema htable]
    exact ⟨_, rfl, rfl, rfl⟩
  · intro tid o hids hschema htable hfind
    have hspec := @placeOrder_merge_spec st req freshId now tid o hids hschema
      htable hfind
    refine ⟨{ o with
              items := mergeItems o.items req.items,
              totalAmount := computeTotal (mergeItems o.items req.items) },
      by rw [hspec], ?_⟩
    exact computeTotal_eq_sumPriceQty _
  · intro oid items o vs tot hids hne hget hval
    rw [updateItems_ok hids hne hget hval]
    refine ⟨_, rfl, ?_⟩
    obtain ⟨tail, htl, htot, _⟩ := validateItemsGo_ok_spec hval
    show tot = sumPriceQty vs
    simp only [List.nil_append] at htl
    rw [htl, htot]
    simp

/-- Witness for C5 (amended): a consistent creation request stores the
caller total, and merging into the active order recomputes the total from
the merged items. -/
theorem C5_witness :
    (∃ u, (placeOrder fixEmptyState fixReqTea "o1" 0).response = .ok u ∧
      u.totalAmount = fixReqTea.totalAmount ∧ u.items = fixReqTea.items) ∧
    (∃ u, (placeOrder fixStActive fixReqMerge "o2" 9).response = .ok u ∧
      u.totalAmount = sumPriceQty u.items) :=
  ⟨(C5_total_amount fixEmptyState fixReqTea "o1" 0).1 (by decide) rfl,
   (C5_total_amount fixStActive fixReqMerge "o2" 9).2.1 "tbl1" fixActiveOrder
     (by decide) (by decide) rfl (by decide)⟩

/-- Counterexample to C6 as stated: one setStatus call moves a completed
order back to `new` — the handler checks only membership in the status set,
not forward sequencing. -/
theorem C6_counterexample :
    fixCompletedOrder.status = "completed" ∧
    fixStCompleted.store.getOrder "o1" = some fixCompletedOrder ∧
    (setStatus fixStCompleted "o1" "new" 20).response =
      .ok { fixCompletedOrder with status := "new" } ∧
    (setStatus fixStCompleted "o1" "new" 20).state.store.getOrder "o1" =
      some { fixCompletedOrder with status := "new" } := by
  refine ⟨rfl, by decide, by decide, by decide⟩

/-- C6 amended: setStatus validates only that the new status belongs to
{new, preparing, ready, completed}; any status from that set is applied
regardless of the order's current status (so `completed` is not terminal
and an order can leave it), while a status outside the set is rejected with
400 and the state is unchanged. -/
theorem C6_status_membership_only (st : ServerState) (oid status : String)
    (now : Nat) (o : Order)
    (hids : IdsUnique st.store)
    (hget : st.store.getOrder oid = some o)
    (hvalid : (["new", "preparing", "ready", "completed"].contains status) = true) :
    ((setStatus st oid status now).response =
        .ok (statusUpdater status now o) ∧
      (setStatus st oid status now).state.store.getOrder oid =
        some (statusUpdater status now o)) ∧
    (∀ bad, (["new", "preparing", "ready", "completed"].contains bad) = false →
      setStatus st oid bad now =
        { response := .badRequest "Invalid status", state := st,
          events := [] }) := by
  obtain ⟨hmem, hid⟩ := getOrder_spec hget
  have hord : (st.store.updateOrderStatus oid status now).1 =
      some (statusUpdater status now o) := by
    rw [← hid]
    exact updateOrderStatus_found hids hmem status now
  refine ⟨⟨?_, ?_⟩, fun bad hbad => setStatus_invalid hbad⟩
  · rw [setStatus_found hvalid hord]
  · show (setStatus st oid status now).state.store.orders.find?
      (fun x => decide (x.id = oid)) = _
    rw [setStatus_found_orders hvalid hord, ← hid]
    exact find?_updateById st.store.orders o.id (statusUpdater status now)
      (fun x => rfl) hids o hmem rfl

/-- Witness for C6 (amended): the completed order accepts `preparing` and
is stored with it, and an unknown status value is rejected unchanged. -/
theorem C6_witness :
    ((setStatus fixStCompleted "o1" "preparing" 20).response =
        .ok (statusUpdater "preparing" 20 fixCompletedOrder) ∧
      (setStatus fixStCompleted "o1" "preparing" 20).state.store.getOrder "o1" =
        some (statusUpdater "preparing" 20 fixCompletedOrder)) ∧
    (∀ bad, (["new", "preparing", "ready", "completed"].contains bad) = false →
      setStatus fixStCompleted "o1" bad 20 =
        { response := .badRequest "Invalid status", state := fixStCompleted,
          events := [] }) :=
  C6_status_membership_only fixStCompleted "o1" "preparing" 20
    fixCompletedOrder (by decide) (by decide) (by decide)

/-- Counterexample to C7 as stated: a placeOrder request with an empty
items list is not rejected — it passes schema validation and creates an
order with zero items. -/
theorem C7_counterexample :
    fixReqNoItems.items = [] ∧
    insertOrderSchemaOk fixReqNoItems = true ∧
    (∃ u, (placeOrder fixEmptyState fixReqNoItems "o1" 0).response = .ok u ∧
      u.items = []) ∧
    (placeOrder fixEmptyState fixReqNoItems "o1" 0).state.store.orders.length = 1 := by
  refine ⟨rfl, by decide, ⟨_, rfl, by decide⟩, by decide⟩

/-- C7 amended: placeOrder does not reject an empty items list — the
insert schema constrains only the entries of `items` (each quantity at
least 1), not its length, so an empty-items request on a table-less order
creates and persists an order with zero items. -/
theorem C7_empty_items_accepted (st : ServerState) (req : InsertOrderReq)
    (freshId : String) (now : Nat)
    (hempty : req.items = [])
    (htable : resolveTable st.store req.vendorId req.tableId = .ok none) :
    insertOrderSchemaOk req = true ∧
    ∃ u, (placeOrder st req freshId now).response = .ok u ∧ u.items = [] ∧
      (placeOrder st req freshId now).state.store.orders =
        st.store.orders ++ [u] := by
  have hschema : insertOrderSchemaOk req = true := by
    unfold insertOrderSchemaOk
    rw [hempty]
    rfl
  refine ⟨hschema, ?_⟩
  rw [placeOrder_create_none_spec hschema htable]
  exact ⟨_, rfl, hempty, rfl⟩

/-- Witness for C7 (amended): the concrete empty-items request is accepted
and the created order carries no items. -/
theorem C7_witness :
    insertOrderSchemaOk fixReqNoItems = true ∧
    ∃ u, (placeOrder fixEmptyState fixReqNoItems "o7" 3).response = .ok u ∧
      u.items = [] ∧
      (placeOrder fixEmptyState fixReqNoItems "o7" 3).state.store.orders =
        fixEmptyState.store.orders ++ [u] :=
  C7_empty_items_accepted fixEmptyState fixReqNoItems "o7" 3 rfl rfl

/-- C8: the item-edit endpoint rejects an empty list with 400 leaving the
order untouched; on success every stored item is re-priced from the current
canonical menu item looked up by `menuItemId` (the caller-supplied prices
and names never influence the result) and `totalAmount` is the sum of
canonical price times quantity; if any referenced menu item is missing the
call fails with the menu-item-not-found 400 and the state is completely
unchanged. -/
theorem C8_update_items_canonical (st : ServerState) (oid : String)
    (items : List RawItem)
    (hids : IdsUnique st.store)
    (hshape : ∀ it ∈ items, ¬(it.menuItemId = "" ∨ it.quantity = 0))
    (horder : ∃ o, st.store.getOrder oid = some o) :
    ((updateItems st oid []).response =
        .badRequest "Order must have at least one item" ∧
      (updateItems st oid []).state = st) ∧
    (∀ vs tot, items ≠ [] →
      validateItemsGo st.store [] 0 items = .ok (vs, tot) →
      ∃ u, (updateItems st oid items).response = .ok u ∧ u.items = vs ∧
        u.totalAmount = tot ∧ tot = sumPriceQty vs ∧
        List.Forall₂ (CanonicalItem st.store) items vs) ∧
    (items ≠ [] → (∃ it ∈ items, st.store.getMenuItem it.menuItemId = none) →
      (∃ mid, (updateItems st oid items).response =
          .badRequest ("Menu item " ++ mid ++ " not found") ∧
        st.store.getMenuItem mid = none) ∧
      (updateItems st oid items).state = st) ∧
    (∀ items2, items.map (fun it => (it.menuItemId, it.quantity)) =
        items2.map (fun it => (it.menuItemId, it.quantity)) →
      updateItems st oid items = updateItems st oid items2) := by
  obtain ⟨o, hget⟩ := horder
  refine ⟨⟨rfl, rfl⟩, ?_, ?_, ?_⟩
  · intro vs tot hne hval
    rw [updateItems_ok hids hne hget hval]
    obtain ⟨tail, htl, htot, hall⟩ := validateItemsGo_ok_spec hval
    simp only [List.nil_append] at htl
    refine ⟨_, rfl, rfl, rfl, ?_, ?_⟩
    · rw [htl, htot]
      simp
    · rw [htl]
      exact hall
  · intro hne hmiss
    obtain ⟨mid, herr, hnone⟩ :=
      validateItemsGo_missing hshape hmiss [] 0
    rw [updateItems_error hne hget herr]
    exact ⟨⟨mid, rfl, hnone⟩, rfl⟩
  · intro items2 hkeys
    have hval := validateItemsGo_key_only (s := st.store) hkeys [] 0
    have hemp : items.isEmpty = items2.isEmpty := by
      cases items with
      | nil =>
        cases items2 with
        | nil => rfl
        | cons b bs => simp at hkeys
      | cons a l =>
        cases items2 with
        | nil => simp at hkeys
        | cons b bs => rfl
    simp only [updateItems, hemp, hval]

/-- Witness for C8: editing the active order to two Teas re-prices from the
canonical menu item (2.50, not the caller's stale 1.11) and totals 5.00. -/
theorem C8_witness :
    ∃ u, (updateItems fixStMenu "o1" [fixRawTea]).response = .ok u ∧
      u.items = [{ menuItemId := "m1", name := "Tea", price := 250,
                   quantity := 2 }] ∧
      u.totalAmount = 500 ∧ 500 = sumPriceQty u.items ∧
      List.Forall₂ (CanonicalItem fixStMenu.store) [fixRawTea] u.items := by
  have h := (C8_update_items_canonical fixStMenu "o1" [fixRawTea] (by decide)
    (by decide) ⟨fixActiveOrder, by decide⟩).2.1
    [{ menuItemId := "m1", name := "Tea", price := 250, quantity := 2 }] 500
    (by decide) rfl
  obtain ⟨u, hresp, hitems, htot, hsum, hcan⟩ := h
  refine ⟨u, hresp, hitems, htot, ?_, ?_⟩
  · rw [hitems]
    exact hsum
  · rw [hitems]
    exact hcan

/-- Counterexample to C9 as stated: setStatus mutates an archived order —
the status handler never checks `archived`, so the archived order's status
changes in place. -/
theorem C9_counterexample :
    fixArchivedOrder.archived = true ∧
    fixStArchived.store.getOrder "o9" = some fixArchivedOrder ∧
    (setStatus fixStArchived "o9" "preparing" 30).response =
      .ok { fixArchivedOrder with status := "preparing" } ∧
    (setStatus fixStArchived "o9" "preparing" 30).state.store.getOrder "o9" =
      some { fixArchivedOrder with status := "preparing" } := by
  refine ⟨rfl, by decide, by decide, by decide⟩

/-- C9 amended: archived orders are excluded from the default listing and
from the merge lookup (so placeOrder never merges into one) while staying
queryable through the include-archived listing; but archival is not
enforced as terminal on writes — setStatus (and likewise the item-edit
path, which shares the same unguarded row update) mutates an archived
order in place. -/
theorem C9_archived_not_terminal (st : ServerState) (v oid status : String)
    (now : Nat) :
    (∀ o ∈ st.store.getOrders v false, o.archived = false) ∧
    (∀ tid o, (st.store.getOrders v false).find? (fun x =>
        decide (x.tableId = some tid) && isActiveStatus x.status) = some o →
      o.archived = false) ∧
    (∀ o ∈ st.store.orders, o.vendorId = v → o ∈ st.store.getOrders v true) ∧
    (∀ o, IdsUnique st.store → st.store.getOrder oid = some o →
      o.archived = true →
      (["new", "preparing", "ready", "completed"].contains status) = true →
      (setStatus st oid status now).response =
          .ok (statusUpdater status now o) ∧
        (setStatus st oid status now).state.store.getOrder oid =
          some (statusUpdater status now o)) := by
  refine ⟨?_, ?_, ?_, ?_⟩
  · intro o ho
    have := (mem_getOrders.mp ho).2.2
    simpa using this
  · intro tid o hfind
    have ho := List.mem_of_find?_eq_some hfind
    have := (mem_getOrders.mp ho).2.2
    simpa using this
  · intro o ho hv
    exact mem_getOrders.mpr ⟨ho, hv, by simp⟩
  · intro o hids hget _ hvalid
    obtain ⟨hmem, hid⟩ := getOrder_spec hget
    have hord : (st.store.updateOrderStatus oid status now).1 =
        some (statusUpdater status now o) := by
      rw [← hid]
      exact updateOrderStatus_found hids hmem status now
    constructor
    · rw [setStatus_found hvalid hord]
    · show (setStatus st oid status now).state.store.orders.find?
        (fun x => decide (x.id = oid)) = _
      rw [setStatus_found_orders hvalid hord, ← hid]
      exact find?_updateById st.store.orders o.id (statusUpdater status now)
        (fun x => rfl) hids o hmem rfl

/-- Witness for C9 (amended): the archived order is invisible to the
default listing, visible to the archived one, and still mutable through
setStatus. -/
theorem C9_witness :
    (∀ o ∈ fixStArchived.store.getOrders "v1" false, o.archived = false) ∧
    fixArchivedOrder ∈ fixStArchived.store.getOrders "v1" true ∧
    (setStatus fixStArchived "o9" "ready" 40).response =
      .ok (statusUpdater "ready" 40 fixArchivedOrder) := by
  have h := C9_archived_not_terminal fixStArchived "v1" "o9" "ready" 40
  exact ⟨h.1, h.2.2.1 fixArchivedOrder (by decide) rfl,
    (h.2.2.2 fixArchivedOrder (by decide) (by decide) rfl (by decide)).1⟩

theorem find?_ext {α : Type} (p q : α → Bool) (h : ∀ a, p a = q a)
    (l : List α) : l.find? p = l.find? q := by
  induction l with
  | nil => rfl
  | cons a t ih =>
    simp only [List.find?, h a, ih]

theorem find?_append_case {α : Type} (p : α → Bool) (l1 l2 : List α) :
    (l1 ++ l2).find? p =
      match l1.find? p with
      | some a => some a
      | none => l2.find? p := by
  induction l1 with
  | nil => rfl
  | cons a t ih =>
    cases hpa : p a
    · simp only [List.cons_append, List.find?, hpa]
      exact ih
    · simp only [List.cons_append, List.find?, hpa]

/-- C10: a broadcast to a vendor reaches exactly the open connections
registered under that vendor id: every recipient is open and registered
under the broadcast vendor; a connection registered only under a different
vendor receives nothing; a closed connection receives nothing; and
registering a connection under one vendor never alters another vendor's
connection list. -/
theorem C10_broadcast_isolation (m : VendorConnections) (isOpen : Nat → Bool)
    (v v2 : String) (c : Nat) :
    (c ∈ broadcastRecipients m isOpen v →
      isOpen c = true ∧
        ∃ cs, m.find? (fun p => decide (p.1 = v)) = some (v, cs) ∧ c ∈ cs) ∧
    ((∀ p ∈ m, c ∈ p.2 → p.1 = v2) → ¬v = v2 →
      c ∉ broadcastRecipients m isOpen v) ∧
    (isOpen c = false → c ∉ broadcastRecipients m isOpen v) ∧
    (¬v = v2 → lookupConns (subscribeConn m v2 c) v = lookupConns m v) := by
  refine ⟨?_, ?_, ?_, ?_⟩
  · intro hc
    have hfc := List.mem_filter.mp hc
    refine ⟨hfc.2, ?_⟩
    unfold lookupConns at hfc
    match hf : m.find? (fun p => decide (p.1 = v)) with
    | none =>
      rw [hf] at hfc
      exact absurd hfc.1 (List.not_mem_nil c)
    | some p =>
      rw [hf] at hfc
      have hp : p.1 = v := by simpa using List.find?_some hf
      have hpv : p = (v, p.2) := Prod.ext hp rfl
      exact ⟨p.2, hpv ▸ hf, hfc.1⟩
  · intro hreg hne hc
    have hfc := List.mem_filter.mp hc
    unfold lookupConns at hfc
    match hf : m.find? (fun p => decide (p.1 = v)) with
    | none =>
      rw [hf] at hfc
      exact absurd hfc.1 (List.not_mem_nil c)
    | some p =>
      rw [hf] at hfc
      have hp : p.1 = v := by simpa using List.find?_some hf
      have hpmem := List.mem_of_find?_eq_some hf
      have hv2 := hreg p hpmem hfc.1
      exact hne (hp ▸ hv2)
  · intro hclosed hc
    have := (List.mem_filter.mp hc).2
    rw [hclosed] at this
    cases this
  · intro hne
    unfold subscribeConn
    by_cases hsome : (m.find? (fun p => decide (p.1 = v2))).isSome = true
    · rw [if_pos hsome]
      unfold lookupConns
      rw [List.find?_map]
      have hext : m.find? ((fun q : String × List Nat => decide (q.1 = v)) ∘
          (fun p => if p.1 = v2 then (p.1, p.2 ++ [c]) else p)) =
          m.find? (fun p => decide (p.1 = v)) := by
        apply find?_ext
        intro p
        by_cases hp : p.1 = v2
        · simp [Function.comp, hp]
        · simp [Function.comp, hp]
      rw [hext]
      cases hf : m.find? (fun p => decide (p.1 = v)) with
      | none => simp [hf]
      | some p =>
        have hp : p.1 = v := by simpa using List.find?_some hf
        have hnp : ¬p.1 = v2 := by rw [hp]; exact hne
        simp [hf, hnp]
    · rw [if_neg hsome]
      unfold lookupConns
      rw [find?_append_case]
      cases hf : m.find? (fun p => decide (p.1 = v)) with
      | some p => simp [hf]
      | none =>
        have hnv : ¬v2 = v := fun h => hne h.symm
        simp [hf, List.find?, hnv]

/-- Witness for C10: with v1 owning connections 1 and 2 (2 closed) and v2
owning connection 3, a broadcast to v1 cannot reach connection 3 or the
closed connection 2, and subscribing a new connection under v2 leaves v1's
list unchanged. -/
theorem C10_witness :
    (3 : Nat) ∉ broadcastRecipients fixConns (fun c => decide (c ≠ 2)) "v1" ∧
    (2 : Nat) ∉ broadcastRecipients fixConns (fun c => decide (c ≠ 2)) "v1" ∧
    lookupConns (subscribeConn fixConns "v2" 7) "v1" =
      lookupConns fixConns "v1" := by
  have h3 := C10_broadcast_isolation fixConns (fun c => decide (c ≠ 2))
    "v1" "v2" 3
  have h2 := C10_broadcast_isolation fixConns (fun c => decide (c ≠ 2))
    "v1" "v2" 2
  have h7 := C10_broadcast_isolation fixConns (fun c => decide (c ≠ 2))
    "v1" "v2" 7
  exact ⟨h3.2.1 (by decide) (by decide), h2.2.2.1 (by decide),
    h7.2.2.2 (by decide)⟩
